import Mathlib

/-! Verification of the Dead Sea Scrolls site search and transliteration logic.

The definitions below are a shallow embedding of `src/js/interlinear.js`
(transliteration engine, word-level lookup helpers) and `src/js/search.js`
(index loading, query engine, result rendering).  JavaScript strings are
modelled at the code-point level (`String` / `List Char`); JavaScript objects
used as dictionaries are modelled as association lists in insertion order;
`undefined`-able fields are `Option`s; JS truthiness of strings (`undefined`
and the empty string are falsy) is modelled explicitly at each use site. -/

set_option maxRecDepth 4000

namespace Enoch

/-! String helpers mirroring the JavaScript primitives used by the source.
Lean core `String.toLower`, `String.trim` and `String.splitOn` are
implemented on byte positions and do not reduce in the kernel, so the
embedding uses code-point-list implementations instead. -/

/-- Code-point prefix test on char lists (helper for `jsIncludes`). -/
def isPrefixList : List Char → List Char → Bool
  | [], _ => true
  | _ :: _, [] => false
  | a :: as, b :: bs => a == b && isPrefixList as bs

/-- Code-point contiguous-substring test on char lists (helper for `jsIncludes`). -/
def isInfixList (needle : List Char) : List Char → Bool
  | [] => isPrefixList needle []
  | c :: t => isPrefixList needle (c :: t) || isInfixList needle t

/-- JavaScript `hay.includes(needle)`: contiguous substring containment. -/
def jsIncludes (hay needle : String) : Bool :=
  isInfixList needle.data hay.data

/-- JavaScript `String.prototype.toLowerCase`, code-point-wise. -/
def jsToLower (s : String) : String :=
  String.mk (s.data.map Char.toLower)

/-- JavaScript `String.prototype.trim`: strip leading and trailing whitespace. -/
def jsTrim (s : String) : String :=
  String.mk (((s.data.dropWhile Char.isWhitespace).reverse.dropWhile
    Char.isWhitespace).reverse)

/-- Reading a possibly-`undefined` string field the way `x || ''` does. -/
def jsStr (o : Option String) : String := o.getD ("")

/-- JavaScript `a || b` on strings: `b` when `a` is falsy (empty), else `a`. -/
def jsOr (a b : String) : String := if a.isEmpty then b else a

/-- Truthiness of a possibly-`undefined` string (`undefined` and `""` are falsy). -/
def jsTruthyOpt (o : Option String) : Bool :=
  match o with
  | some t => !t.isEmpty
  | none => false

/-- JavaScript `s.split(':')[0]`: the characters before the first colon. -/
def beforeColon (s : String) : String :=
  String.mk (s.data.takeWhile (fun c => !(c == ':')))

/-- Replace the first `:` by `-` (JavaScript `s.replace(':', '-')` replaces
only the first occurrence). -/
def replaceFirstColonAux : List Char → List Char
  | [] => []
  | c :: rest => if c == ':' then '-' :: rest else c :: replaceFirstColonAux rest

/-- JavaScript `s.replace(':', '-')`. -/
def replaceFirstColon (s : String) : String :=
  String.mk (replaceFirstColonAux s.data)

/-- Test for `/^\d+$/`: the string is nonempty and all decimal digits. -/
def isAllDigits (s : String) : Bool :=
  !s.isEmpty && s.data.all (fun c => c.isDigit)

/-- `parseInt` on an all-decimal-digit string: its decimal value. -/
def parseDecimal (s : String) : Nat :=
  s.data.foldl (fun acc c => acc * 10 + (c.toNat - 48)) 0

/-! Transliteration engine, from `src/js/interlinear.js` lines 21-102. -/

/-- The consonant-row base code points and their transliterations, from the
`rows` table inside `buildTranslitTable` (interlinear.js lines 29-72). -/
def translitRows : List (Nat × String) := [
  (0x1200, "h"), (0x1208, "l"), (0x1210, "H"), (0x1218, "m"), (0x1220, "s\x27"),
  (0x1228, "r"), (0x1230, "s"), (0x1238, "sh"), (0x1240, "q"), (0x1248, "qw"),
  (0x1250, "b"), (0x1258, "bw"), (0x1260, "b"), (0x1268, "v"), (0x1270, "t"),
  (0x1278, "ch"), (0x1280, "kh"), (0x1288, "khw"), (0x1290, "n"), (0x1298, "ny"),
  (0x12A0, "\x27"), (0x12A8, "k"), (0x12B0, "kw"), (0x12B8, "kx"), (0x12C0, "kx"),
  (0x12C8, "w"), (0x12D0, "\x60"), (0x12D8, "z"), (0x12E0, "zh"), (0x12E8, "y"),
  (0x12F0, "d"), (0x12F8, "dd"), (0x1300, "j"), (0x1308, "g"), (0x1310, "gw"),
  (0x1318, "ggw"), (0x1320, "T"), (0x1328, "P"), (0x1330, "ts"), (0x1338, "ts\x27"),
  (0x1340, "f"), (0x1348, "p")]

/-- The vowel-order suffixes used by `buildTranslitTable` (`const vowels`). -/
def translitVowels : List String := ["a", "u", "i", "a", "e", "", "o"]

/-- `buildTranslitTable` (interlinear.js lines 27-83): for each consonant row,
offsets 0-6 map to consonant + vowel suffix and offset 7 to consonant + "wa".
The JS object is modelled as an association list in insertion order (all keys
are distinct). -/
def buildTranslitTable : List (Nat × String) :=
  translitRows.foldl (fun table p =>
    (List.range 7).foldl
      (fun t v => t ++ [(p.1 + v, p.2 ++ translitVowels.getD v (""))]) table
      ++ [(p.1 + 7, p.2 ++ "wa")]) []

/-- The module-level `TRANSLIT_BASES` table (filled once by `buildTranslitTable()`). -/
def TRANSLIT_BASES : List (Nat × String) := buildTranslitTable

/-- JavaScript `TRANSLIT_BASES[cp]` read with `|| ''` flattening: `undefined`
and `''` are both falsy at the use site, so both are represented by `""`. -/
def jsGet (table : List (Nat × String)) (cp : Nat) : String :=
  (table.lookup cp).getD ("")

/-- One loop iteration of `transliterate` (interlinear.js lines 90-100):
`if (TRANSLIT_BASES[cp]) ... else if (cp >= 0x1200 && cp <= 0x137F) ... else ...`. -/
def translitStep (result : String) (ch : Char) : String :=
  let cp := ch.toNat
  let s := jsGet TRANSLIT_BASES cp
  if !s.isEmpty then result ++ s
  else if 0x1200 ≤ cp && cp ≤ 0x137F then result ++ "?"
  else result ++ String.singleton ch

/-- `transliterate` (interlinear.js lines 88-102). -/
def transliterate (geezWord : String) : String :=
  geezWord.data.foldl translitStep ("")

/-! Interlinear lookup helpers, from `src/js/interlinear.js`. -/

/-- A lexicon entry from `words.json` / the `wordData` cache.  Fields that a
record may lack are `Option`s. -/
structure LexiconEntry where
  definition : Option String
  english_definition : Option String
  transliteration : Option String
  root : Option String
  gematria : Option Nat
  frequency : Option Nat
  first_occurrence : Option String
deriving Repr, DecidableEq

/-- An entry of the `geezDefs` dictionary used by the word modal and
`lookupDefinition`; `hasVariant` / `variantNote` are set only on the copies
produced by the variant fallback. -/
structure DefEntry where
  definition : Option String
  english : Option String
  transliteration : Option String
  hasVariant : Option Bool
  variantNote : Option String
deriving Repr, DecidableEq

/-- `getWordTranslit` (interlinear.js lines 135-147): stored transliteration
from `geezDefs`, else from `wordData`, else the algorithmic `transliterate`.
The two globals may each be `undefined` (modelled by `none`). -/
def getWordTranslit (geezDefs wordData : Option (List (String × LexiconEntry)))
    (geezWord : String) : String :=
  let t1 := (geezDefs.bind (fun m => m.lookup geezWord)).bind
    (fun e => e.transliteration)
  if jsTruthyOpt t1 then t1.getD ("")
  else
    let t2 := (wordData.bind (fun m => m.lookup geezWord)).bind
      (fun e => e.transliteration)
    if jsTruthyOpt t2 then t2.getD ("")
    else transliterate geezWord

/-- `lookupDefinition` (interlinear.js lines 616-638): exact match first; else,
for words longer than one character, the word with its last character removed,
returning a spread copy with `hasVariant` / `variantNote` added. -/
def lookupDefinition (geezDefs : Option (List (String × DefEntry)))
    (geez : String) : Option DefEntry :=
  match geezDefs with
  | none => none
  | some defs =>
    match defs.lookup geez with
    | some e => some e
    | none =>
      if geez.length > 1 then
        let trimmed := String.mk (geez.data.take (geez.length - 1))
        match defs.lookup trimmed with
        | some e =>
          some { e with
                 hasVariant := some true,
                 variantNote := some ("(variant form)") }
        | none => none
      else none

/-! Search index loading, from `src/js/search.js` lines 28-64. -/

/-- A verse record of `search_index.json`. -/
structure Verse where
  ref : String
  english : String
  words : List String
deriving Repr, DecidableEq

/-- The raw shape of `search_index.json`. -/
structure IndexData where
  verses : List Verse
  verse_count : Option Nat
  word_count : Option Nat
  chapter_count : Option Nat
deriving Repr, DecidableEq

/-- The `stats` field stored on the built index. -/
structure SearchStats where
  verses : Option Nat
  words : Option Nat
  chapters : Option Nat
deriving Repr, DecidableEq

/-- The built in-memory search index. -/
structure SearchIndex where
  verses : List Verse
  words : List (String × LexiconEntry)
  stats : SearchStats
deriving Repr, DecidableEq

/-- `loadSearchIndex` (search.js lines 28-64).  The two network fetches are
modelled by `Except` arguments (`.error` covers both network failure and JSON
parse failure, either of which lands in the `catch` that returns `null`); the
optional `wordData` global cache is an `Option` consulted before the second
fetch. -/
def loadSearchIndex (indexFetch : Except String IndexData)
    (cachedWordData : Option (List (String × LexiconEntry)))
    (wordsFetch : Except String (List (String × LexiconEntry))) :
    Option SearchIndex :=
  match indexFetch with
  | Except.error _ => none
  | Except.ok indexData =>
    let stats : SearchStats :=
      { verses := indexData.verse_count,
        words := indexData.word_count,
        chapters := indexData.chapter_count }
    match cachedWordData with
    | some words =>
      some { verses := indexData.verses, words := words, stats := stats }
    | none =>
      match wordsFetch with
      | Except.error _ => none
      | Except.ok words =>
        some { verses := indexData.verses, words := words, stats := stats }

/-! Query engine, from `src/js/search.js` lines 152-324. -/

/-- A detected Ethiopic-block character (the regex `/[ሀ-፿]/`). -/
def isEthiopicChar (c : Char) : Bool :=
  0x1200 ≤ c.toNat && c.toNat ≤ 0x137F

/-- `/[ሀ-፿]/.test(query)` (search.js line 167). -/
def containsEthiopic (s : String) : Bool :=
  s.data.any isEthiopicChar

/-- One entry of the `wordMatches` array (search.js lines 200-204). -/
structure WordMatch where
  geez : String
  data : LexiconEntry
  matchType : String
deriving Repr, DecidableEq

/-- The per-entry word-match logic (search.js lines 172-205): the `matched` /
`matchType` flags and the final conditional push, as an `Option`. -/
def matchEntry (isGeez : Bool) (query q : String) (geez : String)
    (data : LexiconEntry) : Option WordMatch :=
  if isGeez && jsIncludes geez query then
    some { geez := geez, data := data, matchType := "Ge\x27ez match" }
  else if !isGeez then
    let d := jsToLower (jsStr data.definition)
    let engDef := jsToLower (jsStr data.english_definition)
    let trans := jsToLower (jsStr data.transliteration)
    let root := jsToLower (jsStr data.root)
    if jsIncludes d q then
      some { geez := geez, data := data, matchType := "Definition" }
    else if jsIncludes engDef q then
      some { geez := geez, data := data, matchType := "Modern definition" }
    else if jsIncludes trans q then
      some { geez := geez, data := data, matchType := "Transliteration" }
    else if jsIncludes root q then
      some { geez := geez, data := data, matchType := "Root" }
    else none
  else none

/-- The verse locations of a word (search.js lines 246-251): refs of the
verses whose word sequence contains it. -/
def locationsFor (verses : List Verse) (geez : String) : List String :=
  (verses.filter (fun v => v.words.contains geez)).map (fun v => v.ref)

/-- `escapeHtml` (search.js lines 331-335) assigns the text to a DOM text node
and reads back `innerHTML`; serialization escapes `&`, `<` and `>`. -/
def escapeChar (c : Char) : String :=
  if c == '&' then "&amp;"
  else if c == '<' then "&lt;"
  else if c == '>' then "&gt;"
  else String.singleton c

/-- `escapeHtml` (search.js lines 331-335). -/
def escapeHtml (text : String) : String :=
  String.join (text.data.map escapeChar)

/-- The opening highlight marker inserted by `highlightMatch`. -/
def markOpen : String := "<mark class=\"search-highlight\">"

/-- The closing highlight marker inserted by `highlightMatch`. -/
def markClose : String := "</mark>"

/-- Case-insensitive equality of two char lists (the `i` regex flag). -/
def lowerEq (a b : List Char) : Bool :=
  a.map Char.toLower == b.map Char.toLower

/-- The global case-insensitive replace performed by `highlightMatch`
(search.js lines 338-342): the query is regex-escaped, so the regex matches
it literally; replacement wraps each leftmost non-overlapping occurrence in
the highlight markers and resumes after it. -/
def hl (q : List Char) : List Char → List Char
  | [] => []
  | c :: rest =>
    if h : lowerEq ((c :: rest).take q.length) q && !q.isEmpty then
      markOpen.data ++ (c :: rest).take q.length ++ markClose.data
        ++ hl q ((c :: rest).drop q.length)
    else c :: hl q rest
termination_by text => text.length
decreasing_by
  · simp only [List.length_drop, List.length_cons]
    have hq : q ≠ [] := by
      rcases Bool.and_eq_true .. ▸ h with ⟨-, h2⟩
      simpa using h2
    have : 0 < q.length := List.length_pos.mpr hq
    omega
  · simp

/-- `highlightMatch` (search.js lines 338-342). -/
def highlightMatch (text query : String) : String :=
  if query.isEmpty then text
  else String.mk (hl query.data text.data)

/-- The word matches actually rendered: `wordMatches.slice(0, 50)`
(search.js line 237). -/
def shownWords (wordMatches : List WordMatch) : List WordMatch :=
  wordMatches.take 50

/-- The verse matches actually rendered: `verseMatches.slice(0, 30)`
(search.js line 280). -/
def shownVerses (verseMatches : List Verse) : List Verse :=
  verseMatches.take 30

/-- The section heading emitted for word and verse matches, carrying the
un-truncated match count (search.js lines 236 and 279). -/
def sectionLabel (title : String) (count : Nat) : String :=
  "<div class=\"search-section-label\">" ++ title ++ " ("
    ++ toString count ++ ")</div>"

/-- The gematria section heading, which echoes the (all-digit) query and the
match count (search.js lines 298-299). -/
def gemLabel (query : String) (count : Nat) : String :=
  "<div class=\"search-section-label\">Gematria = " ++ query ++ " ("
    ++ toString count ++ ")</div>"

/-- One rendered word-match item (search.js lines 238-269). -/
def renderWordItem (verses : List Verse) (chapterBase : String)
    (wm : WordMatch) : String :=
  let d := wm.data
  let defn := jsOr (jsStr d.definition) (jsStr d.english_definition)
  let trans := jsStr d.transliteration
  let locations := locationsFor verses wm.geez
  "<div class=\"search-result-item\">"
    ++ "<div class=\"search-result-word\">"
    ++ "<span class=\"search-geez\">" ++ wm.geez ++ "</span>"
    ++ "<span class=\"search-trans\">" ++ trans ++ "</span>"
    ++ "<span class=\"search-match-type\">" ++ wm.matchType ++ "</span>"
    ++ "</div>"
    ++ "<div class=\"search-result-def\">" ++ escapeHtml defn ++ "</div>"
    ++ "<div class=\"search-result-locations\">"
    ++ String.join (locations.map (fun loc =>
        "<a href=\"" ++ chapterBase ++ beforeColon loc ++ ".html#v"
          ++ replaceFirstColon loc ++ "\" class=\"search-verse-link\">"
          ++ loc ++ "</a>"))
    ++ "</div></div>"

/-- The word-match section (search.js lines 235-275). -/
def wordSection (verses : List Verse) (chapterBase : String)
    (wordMatches : List WordMatch) : String :=
  if wordMatches.length > 0 then
    sectionLabel ("Words") wordMatches.length
      ++ String.join ((shownWords wordMatches).map (renderWordItem verses chapterBase))
      ++ (if wordMatches.length > 50 then
          "<div class=\"search-more\">... and " ++ toString (wordMatches.length - 50)
            ++ " more word matches</div>"
        else "")
  else ""

/-- One rendered verse-match item (search.js lines 281-288); the verse text is
HTML-escaped and then highlighted. -/
def renderVerseItem (chapterBase q : String) (vm : Verse) : String :=
  "<div class=\"search-result-item\">"
    ++ "<a href=\"" ++ chapterBase ++ beforeColon vm.ref ++ ".html#v"
    ++ replaceFirstColon vm.ref ++ "\" class=\"search-verse-ref\">"
    ++ vm.ref ++ "</a>"
    ++ "<div class=\"search-verse-text\">"
    ++ highlightMatch (escapeHtml vm.english) q ++ "</div>"
    ++ "</div>"

/-- The verse-match section (search.js lines 278-294). -/
def verseSection (chapterBase q : String) (verseMatches : List Verse) : String :=
  if verseMatches.length > 0 then
    sectionLabel ("Verses") verseMatches.length
      ++ String.join ((shownVerses verseMatches).map (renderVerseItem chapterBase q))
      ++ (if verseMatches.length > 30 then
          "<div class=\"search-more\">... and " ++ toString (verseMatches.length - 30)
            ++ " more verse matches</div>"
        else "")
  else ""

/-- One rendered gematria-match item (search.js lines 300-307). -/
def renderGemItem (gm : String × LexiconEntry) : String :=
  let defn := jsOr (jsStr gm.2.definition) (jsStr gm.2.english_definition)
  "<div class=\"search-result-item\">"
    ++ "<span class=\"search-geez\">" ++ gm.1 ++ "</span> "
    ++ "<span class=\"search-trans\">" ++ jsStr gm.2.transliteration ++ "</span> "
    ++ "<span class=\"search-gematria-val\">G: "
    ++ ((gm.2.gematria.map (fun n => toString n)).getD ("undefined")) ++ "</span>"
    ++ "<div class=\"search-result-def\">" ++ escapeHtml defn ++ "</div>"
    ++ "</div>"

/-- The gematria section (search.js lines 297-309); no truncation is applied. -/
def gemSection (query : String) (gematriaMatches : List (String × LexiconEntry)) :
    String :=
  if gematriaMatches.length > 0 then
    gemLabel query gematriaMatches.length
      ++ String.join (gematriaMatches.map renderGemItem)
  else ""

/-- Result-HTML assembly (search.js lines 229-323): the three sections, the
no-result fallback (which HTML-escapes the query echo), and the summary line
prepended when the total count is positive. -/
def renderResults (idx : SearchIndex) (isChapter : Bool) (query q : String)
    (wordMatches : List WordMatch) (verseMatches : List Verse)
    (gematriaMatches : List (String × LexiconEntry)) : String :=
  let chapterBase := if isChapter then "" else "1_enoch/"
  let html := wordSection idx.verses chapterBase wordMatches
    ++ verseSection chapterBase q verseMatches
    ++ gemSection query gematriaMatches
  let html := if wordMatches.length = 0 ∧ verseMatches.length = 0
      ∧ gematriaMatches.length = 0 then
      "<div class=\"search-empty\">No results for \"" ++ escapeHtml query
        ++ "\"</div>"
    else html
  let total := wordMatches.length + verseMatches.length + gematriaMatches.length
  if total > 0 then
    "<div class=\"search-summary\">" ++ toString total ++ " result"
      ++ (if total != 1 then "s" else "") ++ " found</div>" ++ html
  else html

/-- The full data computed by one run of `performSearch` past its guards. -/
structure SearchOutcome where
  wordMatches : List WordMatch
  verseMatches : List Verse
  gematriaMatches : List (String × LexiconEntry)
  html : String
deriving Repr, DecidableEq

/-- What `performSearch` leaves in the results pane: the too-short hint
(search.js lines 154-157), the index-unavailable message (lines 160-163), or
computed results. -/
inductive SearchResult where
  | tooShort : SearchResult
  | unavailable : SearchResult
  | results : SearchOutcome → SearchResult
deriving Repr, DecidableEq

/-- `performSearch` (search.js lines 152-324).  Its `query` argument is the
already-trimmed input (the input handler passes `input.value.trim()`); the
index is `none` whenever `loadSearchIndex` failed. -/
def performSearch (index : Option SearchIndex) (isChapter : Bool)
    (query : String) : SearchResult :=
  if query.length < 2 then SearchResult.tooShort
  else
    match index with
    | none => SearchResult.unavailable
    | some idx =>
      let q := jsToLower query
      let isGeez := containsEthiopic query
      let wordMatches := idx.words.filterMap
        (fun p => matchEntry isGeez query q p.1 p.2)
      let verseMatches := if !isGeez then
          idx.verses.filter (fun v => jsIncludes (jsToLower v.english) q)
        else []
      let gematriaMatches := if isAllDigits query then
          idx.words.filter (fun p => p.2.gematria == some (parseDecimal query))
        else []
      SearchResult.results {
        wordMatches := wordMatches,
        verseMatches := verseMatches,
        gematriaMatches := gematriaMatches,
        html := renderResults idx isChapter query q wordMatches verseMatches
          gematriaMatches }

/-- The debounced input handler calls `performSearch(input.value.trim())`
(search.js line 102): the engine as seen from raw input. -/
def searchFor (index : Option SearchIndex) (isChapter : Bool)
    (raw : String) : SearchResult :=
  performSearch index isChapter (jsTrim raw)

/-- The word-match list of a result (empty for the guard outcomes). -/
def SearchResult.wordList : SearchResult → List WordMatch
  | SearchResult.results o => o.wordMatches
  | _ => []

/-- The verse-match list of a result (empty for the guard outcomes). -/
def SearchResult.verseList : SearchResult → List Verse
  | SearchResult.results o => o.verseMatches
  | _ => []

/-- The gematria-match list of a result (empty for the guard outcomes). -/
def SearchResult.gemList : SearchResult → List (String × LexiconEntry)
  | SearchResult.results o => o.gematriaMatches
  | _ => []

/-- The rendered HTML of a result (empty for the guard outcomes). -/
def SearchResult.htmlOf : SearchResult → String
  | SearchResult.results o => o.html
  | _ => ""

/-! Specification-side definitions: these follow the wording of the spec and
of the claims, to be compared against the source-side definitions above. -/

/-- Per-character contribution as claim C1 words it: the table syllable when
the code point is a key, the placeholder for unmapped Ethiopic-range code
points, the character itself otherwise. -/
def translitCharSpec (c : Char) : String :=
  match TRANSLIT_BASES.lookup c.toNat with
  | some s => s
  | none =>
    if 0x1200 ≤ c.toNat && c.toNat ≤ 0x137F then "?" else String.singleton c

/-- The transliteration table as the spec describes it: for every consonant
row, offsets 0..6 map to consonant + the vowel suffix from a, u, i, a, e,
(empty), o, and offset 7 maps to consonant + "wa". -/
def specTranslitTable : List (Nat × String) :=
  (translitRows.map (fun p =>
    ((List.range 7).map (fun v => (p.1 + v, p.2 ++ translitVowels.getD v (""))))
      ++ [(p.1 + 7, p.2 ++ "wa")])).flatten

/-- Claim C2's fixed priority list: the four lowercased entry fields paired
with the labels the engine reports for them. -/
def latinFieldPriority (data : LexiconEntry) : List (String × String) :=
  [(jsToLower (jsStr data.definition), "Definition"),
   (jsToLower (jsStr data.english_definition), "Modern definition"),
   (jsToLower (jsStr data.transliteration), "Transliteration"),
   (jsToLower (jsStr data.root), "Root")]

/-- Claim C2's first matching field: the label of the first field in priority
order that contains the lowercased query. -/
def firstFieldMatch (q : String) (data : LexiconEntry) : Option String :=
  ((latinFieldPriority data).find? (fun p => jsIncludes p.1 q)).map (fun p => p.2)

/-- Claim C9's ordered list of stored-transliteration providers for a word:
the `geezDefs` store, then the `wordData` store. -/
def providerChain (geezDefs wordData : Option (List (String × LexiconEntry)))
    (w : String) : List (Option String) :=
  [(geezDefs.bind (fun m => m.lookup w)).bind (fun e => e.transliteration),
   (wordData.bind (fun m => m.lookup w)).bind (fun e => e.transliteration)]

/-- First provider value that is present and non-empty (claim C9's
first-non-empty-wins semantics). -/
def firstNonEmpty (l : List (Option String)) : Option String :=
  l.findSome? (fun o => o.bind (fun s => if s.isEmpty then none else some s))

/-- The segment decomposition performed by the highlighter: the scan of `hl`
recorded as a list of (run, highlighted?) segments. -/
def hlSegs (q : List Char) : List Char → List (List Char × Bool)
  | [] => []
  | c :: rest =>
    if h : lowerEq ((c :: rest).take q.length) q && !q.isEmpty then
      ((c :: rest).take q.length, true) :: hlSegs q ((c :: rest).drop q.length)
    else ([c], false) :: hlSegs q rest
termination_by text => text.length
decreasing_by
  · simp only [List.length_drop, List.length_cons]
    have hq : q ≠ [] := by
      rcases Bool.and_eq_true .. ▸ h with ⟨-, h2⟩
      simpa using h2
    have : 0 < q.length := List.length_pos.mpr hq
    omega
  · simp

/-- The text carried by a segment decomposition, markers dropped. -/
def segsFlatten (segs : List (List Char × Bool)) : List Char :=
  segs.foldr (fun seg acc => seg.1 ++ acc) []

/-- The text produced from a segment decomposition with highlight markers
around the highlighted segments. -/
def segsAssemble (segs : List (List Char × Bool)) : List Char :=
  segs.foldr (fun seg acc =>
    (if seg.2 then markOpen.data ++ seg.1 ++ markClose.data else seg.1) ++ acc) []

/-! Concrete fixtures used by witnesses and counterexamples. -/

/-- Fixture entry whose definition and root both contain "angel". -/
def entryW2 : LexiconEntry :=
  { definition := some ("the angel"), english_definition := none,
    transliteration := none, root := some ("angel root"), gematria := none,
    frequency := none, first_occurrence := none }

/-- Fixture index holding `entryW2` and one verse mentioning its word. -/
def idxW2 : SearchIndex :=
  { verses := [{ ref := "1:1", english := "The angel said", words := ["መልአክ"] }],
    words := [("መልአክ", entryW2)],
    stats := { verses := none, words := none, chapters := none } }

/-- Fixture entry with the one-digit gematria value 5. -/
def entryFive : LexiconEntry :=
  { definition := some ("five"), english_definition := none,
    transliteration := none, root := none, gematria := some 5,
    frequency := none, first_occurrence := none }

/-- Fixture index holding `entryFive`. -/
def idxC3 : SearchIndex :=
  { verses := [], words := [("ሀ", entryFive)],
    stats := { verses := none, words := none, chapters := none } }

/-- Fixture entry with gematria value 135. -/
def entry135 : LexiconEntry :=
  { definition := some ("peace"), english_definition := none,
    transliteration := none, root := none, gematria := some 135,
    frequency := none, first_occurrence := none }

/-- Fixture index holding `entry135`. -/
def idxW3 : SearchIndex :=
  { verses := [], words := [("ሰላም", entry135)],
    stats := { verses := none, words := none, chapters := none } }

/-- Fixture entry whose key and stored transliteration are raw HTML markup. -/
def entryC5 : LexiconEntry :=
  { definition := some ("angel"), english_definition := none,
    transliteration := some ("<i>"), root := none, gematria := none,
    frequency := none, first_occurrence := none }

/-- Fixture index whose word key is the markup string `<b>`. -/
def idxC5 : SearchIndex :=
  { verses := [], words := [("<b>", entryC5)],
    stats := { verses := none, words := none, chapters := none } }

/-- Fixture definition entry for the variant-lookup witness. -/
def defEntryW10 : DefEntry :=
  { definition := some ("peace"), english := none, transliteration := none,
    hasVariant := none, variantNote := none }

/-- Fixture definition store keyed by the two-character stem. -/
def defsW10 : List (String × DefEntry) := [("ሰላ", defEntryW10)]

/-- The annotated copy produced by the variant branch of `lookupDefinition`
(claim C10): the entry with `hasVariant`/`variantNote` set. -/
def variantCopy (e : DefEntry) : DefEntry :=
  { e with hasVariant := some true, variantNote := some ("(variant form)") }

/-! General helper lemmas about the string model. -/

/-- Strings with equal character data are equal. -/
theorem string_ext {s t : String} (h : s.data = t.data) : s = t := by
  cases s
  cases t
  exact congrArg String.mk (by simpa using h)

/-- String append is associative. -/
theorem str_append_assoc (a b c : String) : a ++ b ++ c = a ++ (b ++ c) :=
  string_ext (by simp [String.data_append])

/-- The empty string is a left identity for append. -/
theorem str_empty_append (a : String) : ("" : String) ++ a = a :=
  string_ext (by simp [String.data_append])

/-- The empty string is a right identity for append. -/
theorem str_append_empty (a : String) : a ++ ("" : String) = a :=
  string_ext (by simp [String.data_append])

/-- Unfolding lemma for `String.join` on a cons cell. -/
theorem string_join_cons (a : String) (l : List String) :
    String.join (a :: l) = a ++ String.join l := by
  apply string_ext
  simp [String.join_eq, String.data_append]

/-- A list is a `isPrefixList`-prefix of itself followed by anything. -/
theorem isPrefixList_self_append (n t : List Char) :
    isPrefixList n (n ++ t) = true := by
  induction n with
  | nil => rfl
  | cons a as ih => simp [isPrefixList, ih]

/-- Extending the hay on the right preserves `isPrefixList`. -/
theorem isPrefixList_extend (n : List Char) :
    ∀ m t : List Char, isPrefixList n m = true → isPrefixList n (m ++ t) = true := by
  induction n with
  | nil => intro m t _; rfl
  | cons a as ih =>
    intro m t h
    cases m with
    | nil => exact absurd h (by simp [isPrefixList])
    | cons b bs =>
      rw [List.cons_append]
      simp only [isPrefixList, Bool.and_eq_true] at h ⊢
      exact ⟨h.1, ih bs t h.2⟩

/-- The empty needle is an infix of anything. -/
theorem isInfixList_nil (t : List Char) : isInfixList [] t = true := by
  induction t with
  | nil => rfl
  | cons c cs ih => simp [isInfixList, isPrefixList, ih]

/-- Prepending to the hay preserves `isInfixList`. -/
theorem isInfixList_append_left (n : List Char) :
    ∀ a t : List Char, isInfixList n t = true → isInfixList n (a ++ t) = true := by
  intro a
  induction a with
  | nil => intro t h; simpa using h
  | cons c cs ih =>
    intro t h
    rw [List.cons_append]
    simp only [isInfixList, Bool.or_eq_true]
    exact Or.inr (ih t h)

/-- A list is an infix of itself followed by anything. -/
theorem isInfixList_self_append (n t : List Char) :
    isInfixList n (n ++ t) = true := by
  cases n with
  | nil => exact isInfixList_nil t
  | cons a as =>
    rw [List.cons_append]
    simp only [isInfixList, Bool.or_eq_true]
    exact Or.inl (List.cons_append a as t ▸ isPrefixList_self_append (a :: as) t)

/-- Appending to the hay on the right preserves `isInfixList`. -/
theorem isInfixList_append_right (n : List Char) :
    ∀ m t : List Char, isInfixList n m = true → isInfixList n (m ++ t) = true := by
  intro m
  induction m with
  | nil =>
    intro t h
    cases n with
    | nil => simpa using isInfixList_nil t
    | cons a as => exact absurd h (by simp [isInfixList, isPrefixList])
  | cons c cs ih =>
    intro t h
    rw [List.cons_append]
    simp only [isInfixList, Bool.or_eq_true] at h ⊢
    rcases h with h1 | h2
    · exact Or.inl (List.cons_append c cs t ▸ isPrefixList_extend n (c :: cs) t h1)
    · exact Or.inr (ih t h2)

/-- `jsIncludes` holds whenever the hay literally decomposes around the needle. -/
theorem jsIncludes_of_decomp {hay : String} (pre mid post : String)
    (h : hay = pre ++ (mid ++ post)) : jsIncludes hay mid = true := by
  subst h
  unfold jsIncludes
  rw [String.data_append, String.data_append]
  exact isInfixList_append_left mid.data pre.data _
    (isInfixList_self_append mid.data post.data)

/-! Claim C1: transliteration processes characters independently, in order,
through exactly the consonant-row × vowel-order table. -/

/-- Every value stored in the transliteration table is non-empty (so the JS
truthiness test on a present entry always passes). -/
theorem translit_table_values_nonempty :
    TRANSLIT_BASES.all (fun p => !p.2.isEmpty) = true := by decide

/-- A successful lookup in a table whose values all satisfy `P` yields a
value satisfying `P`. -/
theorem lookup_value_all {β : Type} (P : β → Bool) :
    ∀ (l : List (Nat × β)) (a : Nat) (b : β),
      l.all (fun p => P p.2) = true → l.lookup a = some b → P b = true := by
  intro l
  induction l with
  | nil => intro a b _ hl; simp [List.lookup] at hl
  | cons p t ih =>
    intro a b hall hl
    obtain ⟨k, v⟩ := p
    rw [List.all_cons, Bool.and_eq_true] at hall
    simp only [List.lookup] at hl
    split at hl
    · cases hl
      exact hall.1
    · exact ih a b hall.2 hl

/-- Values found in the transliteration table are non-empty. -/
theorem translit_lookup_nonempty {cp : Nat} {s : String}
    (h : TRANSLIT_BASES.lookup cp = some s) : s.isEmpty = false := by
  have := lookup_value_all (fun v => !v.isEmpty) TRANSLIT_BASES cp s
    translit_table_values_nonempty h
  simpa using this

/-- One `transliterate` loop iteration appends exactly the claim-side
per-character contribution. -/
theorem translitStep_append (result : String) (ch : Char) :
    translitStep result ch = result ++ translitCharSpec ch := by
  unfold translitStep translitCharSpec jsGet
  cases h : TRANSLIT_BASES.lookup ch.toNat with
  | some s =>
    have hs := translit_lookup_nonempty h
    simp [h, hs]
  | none =>
    have he : (("" : String).isEmpty) = true := rfl
    simp only [h, Option.getD_none, he, Bool.not_true, Bool.false_eq_true,
      if_false]
    split <;> rfl

/-- The `transliterate` fold is the concatenation of the per-character
contributions. -/
theorem foldl_translitStep (l : List Char) :
    ∀ acc : String,
      l.foldl translitStep acc = acc ++ String.join (l.map translitCharSpec) := by
  induction l with
  | nil =>
    intro acc
    simp only [List.foldl_nil, List.map_nil]
    exact (str_append_empty acc).symm
  | cons c t ih =>
    intro acc
    rw [List.foldl_cons, translitStep_append, ih, List.map_cons,
      string_join_cons, str_append_assoc]

/-- C1: for every input string, `transliterate` emits, character by character
and in order, the table syllable for table keys, the placeholder "?" for
other Ethiopic-range code points, and the character unchanged otherwise; and
the table in force is exactly the consonant-row table with vowel-order
offsets 0..6 mapping to consonant + (a, u, i, a, e, empty, o) and offset 7
mapping to consonant + "wa". Totality is by construction: `transliterate` is
a total Lean function. -/
theorem C1_transliterate_char_by_char :
    (∀ w : String, transliterate w = String.join (w.data.map translitCharSpec))
    ∧ TRANSLIT_BASES = specTranslitTable := by
  constructor
  · intro w
    unfold transliterate
    rw [foldl_translitStep, str_empty_append]
  · decide

/-! Claim C6: trimmed queries below two characters short-circuit to the
too-short hint. -/

/-- C6: for every raw query whose trimmed length is under 2 (the empty
string and single characters included) and every index state (`none` or any
content), the engine returns the TooShort hint; the index is never consulted
because the guard precedes the index check. -/
theorem C6_trimmed_too_short (index : Option SearchIndex) (isChapter : Bool)
    (raw : String) (h : (jsTrim raw).length < 2) :
    searchFor index isChapter raw = SearchResult.tooShort := by
  unfold searchFor performSearch
  simp [h]

/-- Witness for C6 at the single Ethiopic character "ሀ" with a populated index. -/
theorem C6_trimmed_too_short_witness :
    searchFor (some idxW2) false ("ሀ") = SearchResult.tooShort :=
  C6_trimmed_too_short (some idxW2) false ("ሀ") (by decide)

/-! Claim C9: transliteration display is a prioritized first-non-empty-wins
lookup chain with `transliterate` as computed fallback. -/

/-- C9: `getWordTranslit` equals the first present-and-non-empty stored
transliteration along the `geezDefs`-then-`wordData` provider chain,
defaulting to the computed `transliterate`; the computed fallback is
returned exactly when no provider supplies a non-empty stored value, and any
value the chain does supply is non-empty and returned as stored. -/
theorem C9_translit_provider_chain
    (gd wd : Option (List (String × LexiconEntry))) (w : String) :
    getWordTranslit gd wd w
      = (firstNonEmpty (providerChain gd wd w)).getD (transliterate w)
    ∧ (firstNonEmpty (providerChain gd wd w) = none →
        getWordTranslit gd wd w = transliterate w)
    ∧ (∀ t, firstNonEmpty (providerChain gd wd w) = some t →
        getWordTranslit gd wd w = t ∧ t.isEmpty = false) := by
  have main : getWordTranslit gd wd w
      = (firstNonEmpty (providerChain gd wd w)).getD (transliterate w) := by
    unfold getWordTranslit firstNonEmpty providerChain
    cases h1 : (gd.bind (fun m => m.lookup w)).bind (fun e => e.transliteration) with
    | none =>
      cases h2 : (wd.bind (fun m => m.lookup w)).bind (fun e => e.transliteration) with
      | none => simp [h1, h2, jsTruthyOpt, List.findSome?]
      | some t2 =>
        by_cases ht2 : t2.isEmpty
        · simp [h1, h2, jsTruthyOpt, ht2, List.findSome?]
        · simp [h1, h2, jsTruthyOpt, ht2, List.findSome?]
    | some t1 =>
      by_cases ht1 : t1.isEmpty
      · cases h2 : (wd.bind (fun m => m.lookup w)).bind (fun e => e.transliteration) with
        | none => simp [h1, h2, jsTruthyOpt, ht1, List.findSome?]
        | some t2 =>
          by_cases ht2 : t2.isEmpty
          · simp [h1, h2, jsTruthyOpt, ht1, ht2, List.findSome?]
          · simp [h1, h2, jsTruthyOpt, ht1, ht2, List.findSome?]
      · simp [h1, jsTruthyOpt, ht1, List.findSome?]
  refine ⟨main, fun hn => by rw [main, hn]; rfl, fun t ht => ?_⟩
  constructor
  · rw [main, ht]
    rfl
  · unfold firstNonEmpty at ht
    obtain ⟨o, _, hfo⟩ := List.exists_of_findSome?_eq_some ht
    cases o with
    | none => simp at hfo
    | some s =>
      by_cases hs : s.isEmpty
      · simp [hs] at hfo
      · have hst : s = t := by simpa [hs] using hfo
        subst hst
        simpa using hs

/-! Claim C10: definition lookup prefers the exact key and returns an
annotated copy for variant stems, leaving the store untouched. -/

/-- C10: `lookupDefinition` prefers the exact key over the variant fallback;
when only the variant stem (the word minus its final character, for words
longer than one character) is stored, it returns a record carrying the
stored entry's fields with `hasVariant`/`variantNote` set — a copy distinct
from the stored entry whenever that entry lacked `hasVariant` — and in every
other case it returns `none`. The embedding is a pure function of the store,
which is passed in unchanged: no mutation of the stored map is possible. -/
theorem C10_lookupDefinition_copy (defs : List (String × DefEntry)) (geez : String) :
    (∀ e, defs.lookup geez = some e → lookupDefinition (some defs) geez = some e)
    ∧ (defs.lookup geez = none → 1 < geez.length →
        ∀ e, defs.lookup (String.mk (geez.data.take (geez.length - 1))) = some e →
          lookupDefinition (some defs) geez = some (variantCopy e)
          ∧ (variantCopy e).definition = e.definition
          ∧ (variantCopy e).english = e.english
          ∧ (variantCopy e).transliteration = e.transliteration
          ∧ (variantCopy e).hasVariant = some true
          ∧ (variantCopy e).variantNote = some ("(variant form)")
          ∧ (e.hasVariant = none → lookupDefinition (some defs) geez ≠ some e))
    ∧ (defs.lookup geez = none → ¬ 1 < geez.length →
        lookupDefinition (some defs) geez = none)
    ∧ (defs.lookup geez = none → 1 < geez.length →
        defs.lookup (String.mk (geez.data.take (geez.length - 1))) = none →
        lookupDefinition (some defs) geez = none)
    ∧ lookupDefinition none geez = none := by
  refine ⟨?_, ?_, ?_, ?_, rfl⟩
  · intro e he
    simp [lookupDefinition, he]
  · intro hnone hlen e he
    have hres : lookupDefinition (some defs) geez = some (variantCopy e) := by
      simp [lookupDefinition, variantCopy, hnone, hlen, he]
    refine ⟨hres, rfl, rfl, rfl, rfl, rfl, fun hv heq => ?_⟩
    rw [hres] at heq
    have hf : (variantCopy e).hasVariant = e.hasVariant := by
      injection heq with h
      rw [h]
    rw [hv] at hf
    simp [variantCopy] at hf
  · intro hnone hlen
    simp [lookupDefinition, hnone, hlen]
  · intro hnone hlen htr
    simp [lookupDefinition, hnone, hlen, htr]

/-- Witness for C10 on the variant branch: looking up "ሰላም" in a store
holding only the stem "ሰላ" returns the annotated copy of the stem entry. -/
theorem C10_lookupDefinition_copy_witness :
    lookupDefinition (some defsW10) ("ሰላም") = some (variantCopy defEntryW10) :=
  ((C10_lookupDefinition_copy defsW10 ("ሰላም")).2.1 (by decide) (by decide)
    defEntryW10 (by decide)).1

/-! Shared lemmas about `performSearch` past its guards. -/

/-- Unfolding of `performSearch` when the query passes the length guard and
the index is present. -/
theorem performSearch_eq (idx : SearchIndex) (isChapter : Bool) (query : String)
    (hLen : 2 ≤ query.length) :
    performSearch (some idx) isChapter query = SearchResult.results {
      wordMatches := idx.words.filterMap
        (fun p => matchEntry (containsEthiopic query) query (jsToLower query) p.1 p.2),
      verseMatches := if !containsEthiopic query then
          idx.verses.filter (fun v => jsIncludes (jsToLower v.english) (jsToLower query))
        else [],
      gematriaMatches := if isAllDigits query then
          idx.words.filter (fun p => p.2.gematria == some (parseDecimal query))
        else [],
      html := renderResults idx isChapter query (jsToLower query)
        (idx.words.filterMap
          (fun p => matchEntry (containsEthiopic query) query (jsToLower query) p.1 p.2))
        (if !containsEthiopic query then
          idx.verses.filter (fun v => jsIncludes (jsToLower v.english) (jsToLower query))
        else [])
        (if isAllDigits query then
          idx.words.filter (fun p => p.2.gematria == some (parseDecimal query))
        else []) } := by
  have h2 : ¬ query.length < 2 := by omega
  simp [performSearch, h2]

/-! Claim C2: Latin word matching is case-insensitive containment over four
fields in fixed priority order. -/

/-- For Latin-classified queries, an entry matches exactly when one of the
four lowercased fields contains the lowercased query. -/
theorem matchEntry_latin_isSome (query q geez : String) (data : LexiconEntry) :
    (matchEntry false query q geez data).isSome = true ↔
      (jsIncludes (jsToLower (jsStr data.definition)) q = true
       ∨ jsIncludes (jsToLower (jsStr data.english_definition)) q = true
       ∨ jsIncludes (jsToLower (jsStr data.transliteration)) q = true
       ∨ jsIncludes (jsToLower (jsStr data.root)) q = true) := by
  by_cases h1 : jsIncludes (jsToLower (jsStr data.definition)) q = true <;>
  by_cases h2 : jsIncludes (jsToLower (jsStr data.english_definition)) q = true <;>
  by_cases h3 : jsIncludes (jsToLower (jsStr data.transliteration)) q = true <;>
  by_cases h4 : jsIncludes (jsToLower (jsStr data.root)) q = true <;>
  simp [matchEntry, h1, h2, h3, h4]

/-- For Latin-classified queries, the reported match label is the first
matching field in the fixed priority order. -/
theorem matchEntry_latin_firstField (query q geez : String) (data : LexiconEntry) :
    (matchEntry false query q geez data).map (fun wm => wm.matchType)
      = firstFieldMatch q data := by
  by_cases h1 : jsIncludes (jsToLower (jsStr data.definition)) q = true <;>
  by_cases h2 : jsIncludes (jsToLower (jsStr data.english_definition)) q = true <;>
  by_cases h3 : jsIncludes (jsToLower (jsStr data.transliteration)) q = true <;>
  by_cases h4 : jsIncludes (jsToLower (jsStr data.root)) q = true <;>
  simp [matchEntry, firstFieldMatch, latinFieldPriority, List.find?, h1, h2, h3, h4]

/-- An entry matching in both definition and root reports the definition. -/
theorem matchEntry_latin_defn_over_root (query q geez : String) (data : LexiconEntry)
    (hd : jsIncludes (jsToLower (jsStr data.definition)) q = true)
    (hr : jsIncludes (jsToLower (jsStr data.root)) q = true) :
    matchEntry false query q geez data
      = some { geez := geez, data := data, matchType := "Definition" } := by
  simp [matchEntry, hd]

/-- C2: for a Latin-classified trimmed query of length at least 2, the word
matches are precisely the entries, in lexicon order, whose per-entry match
succeeds; an entry matches if and only if the lowercased query is contained
in one of its lowercased definition, english_definition, transliteration or
root fields (missing fields read as empty); the reported field is the first
matching one in that priority order, so an entry matching in both definition
and root reports the definition match. -/
theorem C2_latin_word_match (idx : SearchIndex) (isChapter : Bool) (query : String)
    (hLatin : containsEthiopic query = false) (hLen : 2 ≤ query.length) :
    (performSearch (some idx) isChapter query).wordList
      = idx.words.filterMap (fun p => matchEntry false query (jsToLower query) p.1 p.2)
    ∧ (∀ geez data,
        (matchEntry false query (jsToLower query) geez data).isSome = true ↔
          (jsIncludes (jsToLower (jsStr data.definition)) (jsToLower query) = true
           ∨ jsIncludes (jsToLower (jsStr data.english_definition)) (jsToLower query) = true
           ∨ jsIncludes (jsToLower (jsStr data.transliteration)) (jsToLower query) = true
           ∨ jsIncludes (jsToLower (jsStr data.root)) (jsToLower query) = true))
    ∧ (∀ geez data,
        (matchEntry false query (jsToLower query) geez data).map (fun wm => wm.matchType)
          = firstFieldMatch (jsToLower query) data)
    ∧ (∀ geez data,
        jsIncludes (jsToLower (jsStr data.definition)) (jsToLower query) = true →
        jsIncludes (jsToLower (jsStr data.root)) (jsToLower query) = true →
        matchEntry false query (jsToLower query) geez data
          = some { geez := geez, data := data, matchType := "Definition" }) := by
  refine ⟨?_,
    fun geez data => matchEntry_latin_isSome query (jsToLower query) geez data,
    fun geez data => matchEntry_latin_firstField query (jsToLower query) geez data,
    fun geez data hd hr =>
      matchEntry_latin_defn_over_root query (jsToLower query) geez data hd hr⟩
  rw [performSearch_eq idx isChapter query hLen]
  simp [SearchResult.wordList, hLatin]

/-- Witness for C2 at the query "angel" against `idxW2`, whose entry matches
in both definition and root. -/
theorem C2_latin_word_match_witness :
    (performSearch (some idxW2) false ("angel")).wordList
      = idxW2.words.filterMap
          (fun p => matchEntry false ("angel") (jsToLower ("angel")) p.1 p.2) :=
  (C2_latin_word_match idxW2 false ("angel") (by decide) (by decide)).1

/-! Claim C7: script classification and its effect on verse and word passes. -/

/-- For script-native queries the per-entry match is substring containment of
the raw query in the lexicon key. -/
theorem matchEntry_geez_eq (query q geez : String) (data : LexiconEntry) :
    matchEntry true query q geez data
      = if jsIncludes geez query then
          some { geez := geez, data := data, matchType := "Ge\x27ez match" }
        else none := by
  by_cases h : jsIncludes geez query = true <;> simp [matchEntry, h]

/-- C7: a query is script-native exactly when it contains an Ethiopic-range
character (the embedded classifier `containsEthiopic` is that test);
script-native queries produce no verse matches and match lexicon keys by
containment of the raw query, while Latin-classified queries match verses by
case-insensitive containment in the translated English text. -/
theorem C7_script_classification (idx : SearchIndex) (isChapter : Bool)
    (query : String) (hLen : 2 ≤ query.length) :
    (containsEthiopic query = true →
      (performSearch (some idx) isChapter query).verseList = []
      ∧ (performSearch (some idx) isChapter query).wordList
          = idx.words.filterMap (fun p =>
              if jsIncludes p.1 query then
                some { geez := p.1, data := p.2, matchType := "Ge\x27ez match" }
              else none))
    ∧ (containsEthiopic query = false →
      (performSearch (some idx) isChapter query).verseList
        = idx.verses.filter
            (fun v => jsIncludes (jsToLower v.english) (jsToLower query))) := by
  rw [performSearch_eq idx isChapter query hLen]
  constructor
  · intro hG
    constructor
    · simp [SearchResult.verseList, hG]
    · simp [SearchResult.wordList, hG, matchEntry_geez_eq]
  · intro hG
    simp [SearchResult.verseList, hG]

/-- Witness for C7 at the script-native query "ሰላ". -/
theorem C7_script_classification_witness :
    (performSearch (some idxW2) false ("ሰላ")).verseList = [] :=
  ((C7_script_classification idxW2 false ("ሰላ") (by decide)).1 (by decide)).1

/-! Claim C3: gematria matching is exact numeric equality, but one-digit
values never reach the gematria pass. -/

/-- Appending a non-digit defeats the all-digits test. -/
theorem isAllDigits_append_x (s : String) : isAllDigits (s ++ "x") = false := by
  unfold isAllDigits
  rw [String.data_append]
  have hx : ("x" : String).data = ['x'] := rfl
  have hall : (['x'].all (fun c => c.isDigit)) = false := by decide
  rw [hx, List.all_append, hall]
  simp

/-- C3 counterexample: `entryFive` has gematria 5, yet querying the decimal
string "5" of its gematria value returns the TooShort hint — the entry is
not included, refuting the claim for one-digit gematria values. -/
theorem C3_counterexample_short_gematria :
    entryFive.gematria = some 5
    ∧ performSearch (some idxC3) false ("5") = SearchResult.tooShort
    ∧ (performSearch (some idxC3) false ("5")).gemList = [] :=
  ⟨rfl, by decide, by decide⟩

/-- C3 (amended): for queries that pass the two-character guard, the gematria
pass runs exactly when the trimmed query is entirely decimal digits, and an
entry is included if and only if its gematria field equals the parsed value
exactly; a query with a trailing "x" never produces gematria matches.  (The
original claim fails only for gematria values below 10, whose decimal string
is caught by the length guard.) -/
theorem C3_gematria_exact (idx : SearchIndex) (isChapter : Bool) (query : String)
    (hLen : 2 ≤ query.length) :
    ((performSearch (some idx) isChapter query).gemList
      = if isAllDigits query then
          idx.words.filter (fun p => p.2.gematria == some (parseDecimal query))
        else [])
    ∧ (isAllDigits query = true → ∀ p ∈ idx.words,
        (p ∈ (performSearch (some idx) isChapter query).gemList ↔
          p.2.gematria = some (parseDecimal query)))
    ∧ (∀ s : String, (performSearch (some idx) isChapter (s ++ "x")).gemList = []) := by
  have hmain : (performSearch (some idx) isChapter query).gemList
      = if isAllDigits query then
          idx.words.filter (fun p => p.2.gematria == some (parseDecimal query))
        else [] := by
    rw [performSearch_eq idx isChapter query hLen]
    rfl
  refine ⟨hmain, ?_, ?_⟩
  · intro hAll p hp
    rw [hmain, if_pos hAll, List.mem_filter]
    simp [hp]
  · intro s
    by_cases hx : (s ++ "x").length < 2
    · show (performSearch (some idx) isChapter (s ++ "x")).gemList = []
      unfold performSearch
      rw [if_pos hx]
      rfl
    · have h2 : 2 ≤ (s ++ "x").length := by omega
      rw [performSearch_eq idx isChapter (s ++ "x") h2]
      simp [SearchResult.gemList, isAllDigits_append_x s]

/-- Witness for C3 (amended) at the three-digit value 135. -/
theorem C3_gematria_exact_witness :
    (performSearch (some idxW3) false ("135")).gemList = [("ሰላም", entry135)] := by
  have h := (C3_gematria_exact idxW3 false ("135") (by decide)).1
  rw [h]
  decide

/-! Claim C8: load failure degrades to an unavailable index, never an
exception. -/

/-- C8 counterexample: with the index unavailable, the one-character query
"a" returns the TooShort hint, not the index-unavailable result — so not
every post-failure query reports "index unavailable". -/
theorem C8_counterexample_short_query :
    performSearch none false ("a") = SearchResult.tooShort
    ∧ SearchResult.tooShort ≠ SearchResult.unavailable :=
  ⟨by decide, by decide⟩

/-- C8 (amended): failure while acquiring either document makes the index
build yield `none` rather than propagating the failure; with no index, every
query past the two-character guard returns the explicit unavailable result
(shorter ones return the TooShort hint); and for any query the engine
returns one of the three result values — it is a total function, so no
exception can escape. -/
theorem C8_load_failure_nonfatal (e : String)
    (cached : Option (List (String × LexiconEntry)))
    (wfetch : Except String (List (String × LexiconEntry)))
    (idata : IndexData) (isChapter : Bool) (query : String)
    (hLen : 2 ≤ query.length) :
    loadSearchIndex (Except.error e) cached wfetch = none
    ∧ loadSearchIndex (Except.ok idata) none (Except.error e) = none
    ∧ performSearch none isChapter query = SearchResult.unavailable
    ∧ (∀ index raw,
        searchFor index isChapter raw = SearchResult.tooShort
        ∨ searchFor index isChapter raw = SearchResult.unavailable
        ∨ ∃ o, searchFor index isChapter raw = SearchResult.results o) := by
  refine ⟨rfl, rfl, ?_, ?_⟩
  · have h2 : ¬ query.length < 2 := by omega
    simp [performSearch, h2]
  · intro index raw
    cases h : searchFor index isChapter raw with
    | tooShort => exact Or.inl rfl
    | unavailable => exact Or.inr (Or.inl rfl)
    | results o => exact Or.inr (Or.inr ⟨o, rfl⟩)

/-- Witness for C8 with a failed network fetch and the query "aa". -/
theorem C8_load_failure_nonfatal_witness :
    loadSearchIndex (Except.error ("network")) none (Except.error ("network")) = none
    ∧ performSearch none false ("aa") = SearchResult.unavailable := by
  have h := C8_load_failure_nonfatal ("network") none (Except.error ("network"))
    { verses := [], verse_count := none, word_count := none, chapter_count := none }
    false ("aa") (by decide)
  exact ⟨h.1, h.2.2.1⟩

/-! Claim C4: truncation caps, reported counts and iteration order. -/

/-- Regrouping of appended strings (summary, label-and-items group, rest). -/
theorem append_regroup1 (s a m v g : String) :
    s ++ (((a ++ m) ++ v) ++ g) = s ++ (a ++ (m ++ (v ++ g))) :=
  string_ext (by simp [String.data_append])

/-- Regrouping that absorbs the word section into the prefix. -/
theorem append_regroup2 (s w a m g : String) :
    s ++ ((w ++ (a ++ m)) ++ g) = (s ++ w) ++ (a ++ (m ++ g)) :=
  string_ext (by simp [String.data_append])

/-- Regrouping that exposes the trailing gematria section. -/
theorem append_regroup3 (s w v a : String) :
    s ++ ((w ++ v) ++ a) = (s ++ (w ++ v)) ++ a :=
  string_ext (by simp [String.data_append])

/-- `renderResults` written without its local lets: optional summary prefix,
then either the no-result echo or the three sections. -/
theorem renderResults_eq (idx : SearchIndex) (b : Bool) (query q : String)
    (wms : List WordMatch) (vms : List Verse)
    (gms : List (String × LexiconEntry)) :
    renderResults idx b query q wms vms gms
      = (if wms.length + vms.length + gms.length > 0 then
          "<div class=\"search-summary\">"
            ++ toString (wms.length + vms.length + gms.length) ++ " result"
            ++ (if (wms.length + vms.length + gms.length) != 1 then "s" else "")
            ++ " found</div>"
        else "")
        ++ (if wms.length = 0 ∧ vms.length = 0 ∧ gms.length = 0 then
            "<div class=\"search-empty\">No results for \"" ++ escapeHtml query
              ++ "\"</div>"
          else wordSection idx.verses (if b then "" else "1_enoch/") wms
            ++ verseSection (if b then "" else "1_enoch/") q vms
            ++ gemSection query gms) := by
  simp only [renderResults]
  split_ifs <;> simp [str_empty_append]

/-- With word matches present, the result HTML contains the word-section
label carrying the true count, immediately followed by the renderings of
exactly the first 50 word matches. -/
theorem renderResults_word_decomp (idx : SearchIndex) (b : Bool) (query q : String)
    (wms : List WordMatch) (vms : List Verse)
    (gms : List (String × LexiconEntry)) (h : wms ≠ []) :
    ∃ pre post, renderResults idx b query q wms vms gms
      = pre ++ ((sectionLabel ("Words") wms.length
          ++ String.join ((wms.take 50).map
            (renderWordItem idx.verses (if b then "" else "1_enoch/")))) ++ post) := by
  have hlen : 0 < wms.length := List.length_pos.mpr h
  rw [renderResults_eq]
  rw [if_pos (show wms.length + vms.length + gms.length > 0 by omega)]
  rw [if_neg (show ¬(wms.length = 0 ∧ vms.length = 0 ∧ gms.length = 0) from
    fun hc => absurd hc.1 (by omega))]
  unfold wordSection
  rw [if_pos hlen]
  unfold shownWords
  exact ⟨_, _, append_regroup1 _ _ _ _ _⟩

/-- With verse matches present, the result HTML contains the verse-section
label carrying the true count, immediately followed by the renderings of
exactly the first 30 verse matches. -/
theorem renderResults_verse_decomp (idx : SearchIndex) (b : Bool) (query q : String)
    (wms : List WordMatch) (vms : List Verse)
    (gms : List (String × LexiconEntry)) (h : vms ≠ []) :
    ∃ pre post, renderResults idx b query q wms vms gms
      = pre ++ ((sectionLabel ("Verses") vms.length
          ++ String.join ((vms.take 30).map
            (renderVerseItem (if b then "" else "1_enoch/") q))) ++ post) := by
  have hlen : 0 < vms.length := List.length_pos.mpr h
  rw [renderResults_eq]
  rw [if_pos (show wms.length + vms.length + gms.length > 0 by omega)]
  rw [if_neg (show ¬(wms.length = 0 ∧ vms.length = 0 ∧ gms.length = 0) from
    fun hc => absurd hc.2.1 (by omega))]
  unfold verseSection
  rw [if_pos hlen]
  unfold shownVerses
  exact ⟨_, _, append_regroup2 _ _ _ _ _⟩

/-- With gematria matches present, the result HTML ends with the gematria
label carrying the true count, followed by the renderings of all the
gematria matches: no truncation. -/
theorem renderResults_gem_decomp (idx : SearchIndex) (b : Bool) (query q : String)
    (wms : List WordMatch) (vms : List Verse)
    (gms : List (String × LexiconEntry)) (h : gms ≠ []) :
    ∃ pre, renderResults idx b query q wms vms gms
      = pre ++ (gemLabel query gms.length
          ++ String.join (gms.map renderGemItem)) := by
  have hlen : 0 < gms.length := List.length_pos.mpr h
  rw [renderResults_eq]
  rw [if_pos (show wms.length + vms.length + gms.length > 0 by omega)]
  rw [if_neg (show ¬(wms.length = 0 ∧ vms.length = 0 ∧ gms.length = 0) from
    fun hc => absurd hc.2.2 (by omega))]
  unfold gemSection
  rw [if_pos hlen]
  exact ⟨_, append_regroup3 _ _ _ _⟩

/-- A successful per-entry match carries the entry's own key and record. -/
theorem matchEntry_some_proj {ig : Bool} {query q geez : String}
    {data : LexiconEntry} {wm : WordMatch}
    (h : matchEntry ig query q geez data = some wm) :
    wm.geez = geez ∧ wm.data = data := by
  simp only [matchEntry] at h
  split_ifs at h <;> cases h <;> exact ⟨rfl, rfl⟩

/-- Word matches preserve lexicon iteration order: their (key, entry)
projections form a sublist of the lexicon. -/
theorem filterMap_matchEntry_sublist (ig : Bool) (query q : String) :
    ∀ l : List (String × LexiconEntry),
      List.Sublist ((l.filterMap (fun p => matchEntry ig query q p.1 p.2)).map
        (fun wm => (wm.geez, wm.data))) l := by
  intro l
  induction l with
  | nil => simp
  | cons p t ih =>
    rw [List.filterMap_cons]
    cases h : matchEntry ig query q p.1 p.2 with
    | none => exact ih.cons p
    | some wm =>
      rw [List.map_cons]
      have hp := matchEntry_some_proj h
      have hid : (wm.geez, wm.data) = p := by
        rw [hp.1, hp.2]
      rw [hid]
      exact ih.cons₂ p

/-- C4: past the guards the engine returns a results value whose HTML shows
the word-section label with the true count followed by exactly the first 50
word-match renderings, the verse-section label with the true count followed
by exactly the first 30 verse renderings, and the gematria label with the
true count followed by renderings of every gematria match (no cap); the
shown prefixes have length `min cap count` (so 60 word matches show exactly
50); and each of the three lists preserves the iteration order of the
lexicon mapping or verse sequence it filters. -/
theorem C4_caps_counts_order (idx : SearchIndex) (isChapter : Bool)
    (query : String) (hLen : 2 ≤ query.length) :
    (∃ o, performSearch (some idx) isChapter query = SearchResult.results o)
    ∧ ∀ o, performSearch (some idx) isChapter query = SearchResult.results o →
      ((o.wordMatches ≠ [] → ∃ pre post, o.html
          = pre ++ ((sectionLabel ("Words") o.wordMatches.length
              ++ String.join ((o.wordMatches.take 50).map
                (renderWordItem idx.verses (if isChapter then "" else "1_enoch/"))))
            ++ post))
      ∧ (o.verseMatches ≠ [] → ∃ pre post, o.html
          = pre ++ ((sectionLabel ("Verses") o.verseMatches.length
              ++ String.join ((o.verseMatches.take 30).map
                (renderVerseItem (if isChapter then "" else "1_enoch/")
                  (jsToLower query))))
            ++ post))
      ∧ (o.gematriaMatches ≠ [] → ∃ pre, o.html
          = pre ++ (gemLabel query o.gematriaMatches.length
              ++ String.join (o.gematriaMatches.map renderGemItem)))
      ∧ (o.wordMatches.take 50).length = min 50 o.wordMatches.length
      ∧ (o.wordMatches.length = 60 → (o.wordMatches.take 50).length = 50)
      ∧ (o.verseMatches.take 30).length = min 30 o.verseMatches.length
      ∧ List.Sublist (o.wordMatches.map (fun wm => (wm.geez, wm.data))) idx.words
      ∧ List.Sublist o.verseMatches idx.verses
      ∧ List.Sublist o.gematriaMatches idx.words) := by
  refine ⟨⟨_, performSearch_eq idx isChapter query hLen⟩, fun o ho => ?_⟩
  rw [performSearch_eq idx isChapter query hLen] at ho
  injection ho with ho
  subst ho
  refine ⟨fun h => renderResults_word_decomp idx isChapter query (jsToLower query)
      _ _ _ h,
    fun h => renderResults_verse_decomp idx isChapter query (jsToLower query)
      _ _ _ h,
    fun h => renderResults_gem_decomp idx isChapter query (jsToLower query)
      _ _ _ h,
    List.length_take 50 _,
    fun h60 => by rw [List.length_take, h60]; decide,
    List.length_take 30 _,
    filterMap_matchEntry_sublist (containsEthiopic query) query (jsToLower query)
      idx.words,
    ?_, ?_⟩
  · cases hc : containsEthiopic query <;>
      simp [hc, List.filter_sublist, List.nil_sublist]
  · by_cases hd : isAllDigits query <;>
      simp [hd, List.filter_sublist, List.nil_sublist]

/-- Witness for C4 at the query "angel" against `idxW2`. -/
theorem C4_caps_counts_order_witness :
    ∃ o, performSearch (some idxW2) false ("angel") = SearchResult.results o :=
  (C4_caps_counts_order idxW2 false ("angel") (by decide)).1

/-! Claim C5: escaping of embedded text and highlight placement. -/

/-- C5 counterexample: with a lexicon key `<b>` and stored transliteration
`<i>`, the result markup embeds both verbatim (their escaped forms differ),
so not every piece of source text the engine embeds is HTML-escaped. -/
theorem C5_counterexample_unescaped_markup :
    jsIncludes ((performSearch (some idxC5) false ("angel")).htmlOf)
      ("<span class=\"search-geez\"><b></span>") = true
    ∧ jsIncludes ((performSearch (some idxC5) false ("angel")).htmlOf)
      ("<span class=\"search-trans\"><i></span>") = true
    ∧ escapeHtml ("<b>") = "&lt;b&gt;"
    ∧ escapeHtml ("<i>") = "&lt;i&gt;" :=
  ⟨by decide, by decide, by decide, by decide⟩

/-- The escape of a single character contains no angle bracket. -/
theorem escapeChar_no_angle (c : Char) :
    (escapeChar c).data.all (fun d => !(d == '<') && !(d == '>')) = true := by
  unfold escapeChar
  split_ifs with h1 h2 h3
  · decide
  · decide
  · decide
  · have g2 : (c == '<') = false := by simpa using h2
    have g3 : (c == '>') = false := by simpa using h3
    simp [String.singleton, g2, g3]

/-- Escaped text contains no angle bracket. -/
theorem join_map_escapeChar_no_angle :
    ∀ l : List Char,
      (String.join (l.map escapeChar)).data.all
        (fun d => !(d == '<') && !(d == '>')) = true := by
  intro l
  induction l with
  | nil => decide
  | cons c t ih =>
    rw [List.map_cons, string_join_cons, String.data_append, List.all_append,
      escapeChar_no_angle c, ih]
    rfl

/-- A digit is left unchanged by the per-character escape. -/
theorem escapeChar_digit {c : Char} (h : c.isDigit = true) :
    escapeChar c = String.singleton c := by
  have mk1 : (c == '&') = false := by
    apply beq_eq_false_iff_ne.mpr
    intro he
    rw [he] at h
    exact absurd h (by decide)
  have mk2 : (c == '<') = false := by
    apply beq_eq_false_iff_ne.mpr
    intro he
    rw [he] at h
    exact absurd h (by decide)
  have mk3 : (c == '>') = false := by
    apply beq_eq_false_iff_ne.mpr
    intro he
    rw [he] at h
    exact absurd h (by decide)
  simp [escapeChar, mk1, mk2, mk3]

/-- All-digit text is a fixed point of the escape. -/
theorem join_escapeChar_digits :
    ∀ l : List Char, l.all (fun c => c.isDigit) = true →
      String.join (l.map escapeChar) = String.mk l := by
  intro l
  induction l with
  | nil => intro _; rfl
  | cons c t ih =>
    intro h
    rw [List.all_cons, Bool.and_eq_true] at h
    rw [List.map_cons, string_join_cons, escapeChar_digit h.1, ih h.2]
    apply string_ext
    simp [String.data_append, String.singleton]

/-- A take-prefix passes the prefix test. -/
theorem isPrefixList_take : ∀ (n : Nat) (l : List Char),
    isPrefixList (l.take n) l = true := by
  intro n
  induction n with
  | zero => intro l; cases l <;> rfl
  | succ m ih =>
    intro l
    cases l with
    | nil => rfl
    | cons c t => simp [List.take, isPrefixList, ih t]

/-- The flattened segment decomposition reproduces the input text: the
highlighter only inserts markers, never alters or drops text. -/
theorem hlSegs_flatten (q : List Char) :
    ∀ text : List Char, segsFlatten (hlSegs q text) = text := by
  refine hlSegs.induct q (fun text => segsFlatten (hlSegs q text) = text)
    ?_ ?_ ?_
  · simp [hlSegs, segsFlatten]
  · intro c rest hcond ih
    rw [hlSegs]
    rw [dif_pos hcond]
    simp only [segsFlatten, List.foldr_cons]
    show (c :: rest).take q.length ++ segsFlatten (hlSegs q ((c :: rest).drop q.length))
      = c :: rest
    rw [ih]
    exact List.take_append_drop q.length (c :: rest)
  · intro c rest hcond ih
    rw [hlSegs]
    rw [dif_neg hcond]
    simp only [segsFlatten, List.foldr_cons]
    show [c] ++ segsFlatten (hlSegs q rest) = c :: rest
    rw [ih]
    rfl

/-- The highlighter output is the assembly of the segment decomposition with
markers around the highlighted segments. -/
theorem hl_eq_assemble (q : List Char) :
    ∀ text : List Char, hl q text = segsAssemble (hlSegs q text) := by
  refine hlSegs.induct q (fun text => hl q text = segsAssemble (hlSegs q text))
    ?_ ?_ ?_
  · simp [hl, hlSegs, segsAssemble]
  · intro c rest hcond ih
    rw [hl, hlSegs]
    rw [dif_pos hcond, dif_pos hcond]
    rw [ih]
    simp [segsAssemble, List.append_assoc]
  · intro c rest hcond ih
    rw [hl, hlSegs]
    rw [dif_neg hcond, dif_neg hcond]
    rw [ih]
    simp [segsAssemble]

/-- Every highlighted segment is a case-insensitive copy of the query. -/
theorem hlSegs_true_match (q : List Char) :
    ∀ text : List Char, ∀ seg ∈ hlSegs q text, seg.2 = true →
      lowerEq seg.1 q = true := by
  refine hlSegs.induct q
    (fun text => ∀ seg ∈ hlSegs q text, seg.2 = true → lowerEq seg.1 q = true)
    ?_ ?_ ?_
  · intro seg hseg
    rw [hlSegs] at hseg
    simp at hseg
  · intro c rest hcond ih seg hseg h2
    rw [hlSegs, dif_pos hcond] at hseg
    rcases List.mem_cons.mp hseg with he | hm
    · subst he
      exact (Bool.and_eq_true .. ▸ hcond).1
    · exact ih seg hm h2
  · intro c rest hcond ih seg hseg h2
    rw [hlSegs, dif_neg hcond] at hseg
    rcases List.mem_cons.mp hseg with he | hm
    · subst he
      simp at h2
    · exact ih seg hm h2

/-- Without a case-insensitive occurrence of the query the highlighter
leaves the text unchanged: markers appear only at occurrences. -/
theorem hl_no_occurrence (q : List Char) :
    ∀ text : List Char,
      isInfixList (q.map Char.toLower) (text.map Char.toLower) = false →
      hl q text = text := by
  refine hlSegs.induct q
    (fun text =>
      isInfixList (q.map Char.toLower) (text.map Char.toLower) = false →
        hl q text = text)
    ?_ ?_ ?_
  · intro _
    rw [hl]
  · intro c rest hcond _ hno
    exfalso
    have hpref : lowerEq ((c :: rest).take q.length) q = true :=
      (Bool.and_eq_true .. ▸ hcond).1
    unfold lowerEq at hpref
    have hq : q.map Char.toLower
        = ((c :: rest).map Char.toLower).take q.length := by
      have := beq_iff_eq.mp hpref
      rw [← this, List.map_take]
    have hisp : isPrefixList (q.map Char.toLower)
        ((c :: rest).map Char.toLower) = true := by
      rw [hq]
      exact isPrefixList_take q.length _
    rw [List.map_cons] at hisp hno
    rw [show isInfixList (q.map Char.toLower)
        (Char.toLower c :: rest.map Char.toLower)
      = (isPrefixList (q.map Char.toLower)
          (Char.toLower c :: rest.map Char.toLower)
        || isInfixList (q.map Char.toLower) (rest.map Char.toLower))
      from rfl] at hno
    rw [hisp] at hno
    simp at hno
  · intro c rest hcond ih hno
    rw [hl, dif_neg hcond]
    have hno2 : isInfixList (q.map Char.toLower) (rest.map Char.toLower)
        = false := by
      rw [List.map_cons] at hno
      rw [show isInfixList (q.map Char.toLower)
          (Char.toLower c :: rest.map Char.toLower)
        = (isPrefixList (q.map Char.toLower)
            (Char.toLower c :: rest.map Char.toLower)
          || isInfixList (q.map Char.toLower) (rest.map Char.toLower))
        from rfl] at hno
      exact (Bool.or_eq_false_iff.mp hno).2
    rw [ih hno2]

/-- Nonempty strings have nonempty character data. -/
theorem data_ne_nil_of_not_isEmpty {q : String} (hq : ¬q.isEmpty = true) :
    q.data ≠ [] := by
  intro hnil
  apply hq
  have : q = "" := string_ext hnil
  rw [this]
  rfl

/-- C5 (amended/corrected): the engine escapes the texts it runs through
`escapeHtml` — result definitions, verse text, and the no-result query echo —
and escaped text is free of angle brackets; all-digit queries (the only ones
echoed raw in the gematria heading) are fixed points of the escape; but
Ge'ez keys and stored transliterations are embedded raw, as the
counterexample shows.  Verse text is annotated by the highlighter applied to
the escaped text: the output is the input partitioned into segments with
markers around highlighted segments only, every highlighted segment is a
case-insensitive copy of the query, and text without an occurrence is
returned unchanged. -/
theorem C5_escaping_and_highlight :
    (∀ s : String,
      (escapeHtml s).data.all (fun d => !(d == '<') && !(d == '>')) = true)
    ∧ (∀ (idx : SearchIndex) (b : Bool) (query q : String),
        renderResults idx b query q [] [] []
          = "<div class=\"search-empty\">No results for \"" ++ escapeHtml query
              ++ "\"</div>")
    ∧ (∀ (cb q : String) (vm : Verse), ∃ pre post,
        renderVerseItem cb q vm
          = pre ++ (highlightMatch (escapeHtml vm.english) q ++ post))
    ∧ (∀ (verses : List Verse) (cb : String) (wm : WordMatch), ∃ pre mid post,
        renderWordItem verses cb wm
          = pre ++ (wm.geez ++ (mid
              ++ (escapeHtml (jsOr (jsStr wm.data.definition)
                    (jsStr wm.data.english_definition)) ++ post))))
    ∧ (∀ query : String, isAllDigits query = true → escapeHtml query = query)
    ∧ (∀ q text : String, ¬q.isEmpty = true →
        segsFlatten (hlSegs q.data text.data) = text.data
        ∧ (highlightMatch text q).data = segsAssemble (hlSegs q.data text.data)
        ∧ (∀ seg ∈ hlSegs q.data text.data, seg.2 = true →
            lowerEq seg.1 q.data = true))
    ∧ (∀ q text : String, ¬q.isEmpty = true →
        isInfixList (q.data.map Char.toLower) (text.data.map Char.toLower)
          = false →
        highlightMatch text q = text) := by
  refine ⟨?_, ?_, ?_, ?_, ?_, ?_, ?_⟩
  · intro s
    exact join_map_escapeChar_no_angle s.data
  · intro idx b query q
    rw [renderResults_eq]
    rw [if_neg (by simp)]
    rw [if_pos ⟨rfl, rfl, rfl⟩]
    exact str_empty_append _
  · intro cb q vm
    refine ⟨"<div class=\"search-result-item\">"
      ++ "<a href=\"" ++ cb ++ beforeColon vm.ref ++ ".html#v"
      ++ replaceFirstColon vm.ref ++ "\" class=\"search-verse-ref\">"
      ++ vm.ref ++ "</a>"
      ++ "<div class=\"search-verse-text\">",
      "</div>" ++ "</div>", ?_⟩
    simp only [renderVerseItem]
    apply string_ext
    simp [String.data_append]
  · intro verses cb wm
    refine ⟨"<div class=\"search-result-item\">"
      ++ "<div class=\"search-result-word\">"
      ++ "<span class=\"search-geez\">",
      "</span>"
      ++ "<span class=\"search-trans\">" ++ jsStr wm.data.transliteration
      ++ "</span>"
      ++ "<span class=\"search-match-type\">" ++ wm.matchType ++ "</span>"
      ++ "</div>"
      ++ "<div class=\"search-result-def\">",
      "</div>"
      ++ "<div class=\"search-result-locations\">"
      ++ String.join ((locationsFor verses wm.geez).map (fun loc =>
          "<a href=\"" ++ cb ++ beforeColon loc ++ ".html#v"
            ++ replaceFirstColon loc ++ "\" class=\"search-verse-link\">"
            ++ loc ++ "</a>"))
      ++ "</div></div>", ?_⟩
    simp only [renderWordItem]
    apply string_ext
    simp [String.data_append]
  · intro query h
    unfold isAllDigits at h
    rw [Bool.and_eq_true] at h
    unfold escapeHtml
    rw [join_escapeChar_digits query.data h.2]
  · intro q text hq
    refine ⟨hlSegs_flatten q.data text.data, ?_,
      hlSegs_true_match q.data text.data⟩
    unfold highlightMatch
    rw [if_neg hq]
    rw [hl_eq_assemble q.data text.data]
  · intro q text hq hno
    unfold highlightMatch
    rw [if_neg hq]
    rw [hl_no_occurrence q.data text.data hno]

/-- Witness for C5 at the all-digit query "135" and a no-occurrence
highlight. -/
theorem C5_escaping_and_highlight_witness :
    escapeHtml ("135") = "135"
    ∧ highlightMatch ("Peace be with you") ("zzz") = "Peace be with you" :=
  ⟨C5_escaping_and_highlight.2.2.2.2.1 ("135") (by decide),
   C5_escaping_and_highlight.2.2.2.2.2.2 ("zzz") ("Peace be with you")
     (by decide) (by decide)⟩

end Enoch
